import Mathlib

/-!
Verification of the segmented record writer
(`framework/cybertron/record/record_writer.h` and its specification).

The header under `src/` declares `RecordWriter` (fields `is_writing_`,
`segment_raw_size_`, `segment_begin_time_`, `file_index_`, the active and
backup `RecordFileWriter` handles) and gives inline only the convenience
overload `WriteMessage(channel_name, message)` (lines 65-81).  The bodies of
`Open`, `Close`, `WriteChannel`, `WriteMessage(SingleMessage)` and
`SplitOutfile` are in the repository's `.cc` file, which is not under `src/`;
those operations are modelled from the specification (sections 4.1-4.4) and
are marked `Modelled from the spec:` below.  The external segment file writer
(spec section 6) is embedded as an in-memory `Segment` value: `write_channel`
appends to `channels`, `write_message` appends to `messages`; I/O failure of
the external writer is not modelled (no claim below depends on it).  The
clock source `now()` (spec section 6) is passed as an explicit argument.
-/

namespace Apollo.Record

/-- A declared channel: name, message type name and serialized schema
descriptor — the three parameters of `RecordWriter::WriteChannel`
(record_writer.h lines 47-48). Identity is `name` (spec section 3). -/
structure Channel where
  name : String
  type_name : String
  proto_desc : String
deriving DecidableEq, Repr

/-- A `SingleMessage` as consumed by the core `WriteMessage` overload:
channel name, raw content bytes and a nanosecond timestamp (record_writer.h
lines 72-75 set exactly these three fields; spec section 3). -/
structure SingleMessage where
  channel_name : String
  content : List Nat
  time : Nat
deriving DecidableEq, Repr

/-- A `RawMessage` carries only raw content bytes: the inline overload at
record_writer.h line 74 reads only `message->message`. -/
structure RawMessage where
  message : List Nat
deriving DecidableEq, Repr

/-- One on-disk segment as produced by the external segment file writer:
its zero-based index, the channel declarations written into it (in order)
and the messages written into it (in order). -/
structure Segment where
  file_index : Nat
  channels : List Channel
  messages : List SingleMessage
deriving DecidableEq, Repr

/-- Error taxonomy of spec section 7. `IoFailure` is listed for completeness;
the external writer is modelled as non-failing. -/
inductive WErr where
  | NotOpen
  | ChannelConflict
  | EmptyMessage
  | IoFailure
deriving DecidableEq, Repr

/-- The record writer state.  Field names follow record_writer.h lines 57-62;
`registry_` is the Channel Registry (spec section 4.4), `active_` the active
segment writer, `closed_segments_` the segments already handed to
finalization, and `max_raw_size_` / `max_interval_` the two configured
rotation thresholds (spec section 4.2). `segment_begin_time_` is `none`
until established at the first message (spec section 4.2). -/
structure RecordWriter where
  is_writing_ : Bool := false
  segment_raw_size_ : Nat := 0
  segment_begin_time_ : Option Nat := none
  file_index_ : Nat := 0
  path_ : String := ""
  registry_ : List Channel := []
  active_ : Segment := ⟨0, [], []⟩
  closed_segments_ : List Segment := []
  max_raw_size_ : Nat
  max_interval_ : Nat
deriving DecidableEq, Repr

/-- A freshly constructed writer with the two thresholds configured. -/
def RecordWriter.init (maxRaw maxDur : Nat) : RecordWriter :=
  { max_raw_size_ := maxRaw, max_interval_ := maxDur }

/-- Modelled from the spec: section 4.2 Segmentation Policy, a pure decision
over `(raw_size, elapsed_since_begin_time)` against the two thresholds,
logical OR, strict "exceeded"; before `begin_time` is established (first
message of the session) there is nothing to roll from, so no roll. The
duration is evaluated against the incoming message's timestamp (spec
sections 4.2 and 4.3 step 5: `begin_time` is the triggering message's
timestamp). -/
def shouldRoll (w : RecordWriter) (now : Nat) : Bool :=
  match w.segment_begin_time_ with
  | none => false
  | some bt =>
      decide (w.max_raw_size_ < w.segment_raw_size_) ||
      decide (w.max_interval_ < now - bt)

/-- Modelled from the spec: section 4.3 Rotation Coordinator.  Opens the
segment at `file_index + 1`, replays every registered channel into it in
registry order, retires the previously active segment to finalization,
resets `raw_size` to zero and `begin_time` to the triggering message's
timestamp, and increments `file_index`. -/
def RecordWriter.SplitOutfile (w : RecordWriter) (trigger_time : Nat) :
    RecordWriter :=
  { w with
    closed_segments_ := w.closed_segments_ ++ [w.active_],
    active_ := ⟨w.file_index_ + 1, w.registry_, []⟩,
    file_index_ := w.file_index_ + 1,
    segment_raw_size_ := 0,
    segment_begin_time_ := some trigger_time }

/-- Modelled from the spec: section 4.1 step (2), auto-registration of a
never-declared channel at write time.  The derived type name and descriptor
are unspecified in the source (spec section 9, open question); the model
uses empty strings.  Registration writes the declaration into the active
segment, as `WriteChannel` does. -/
def RecordWriter.autoRegister (w : RecordWriter) (name : String) :
    RecordWriter :=
  if w.registry_.any (fun c => c.name == name) then w
  else
    { w with
      registry_ := w.registry_ ++ [⟨name, "", ""⟩],
      active_ := { w.active_ with
                   channels := w.active_.channels ++ [⟨name, "", ""⟩] } }

/-- Modelled from the spec: section 4.1, the core
`WriteMessage(SingleMessage)` overload (declared at record_writer.h line 51).
Steps in order: (1) fail `NotOpen` if not writing; fail `EmptyMessage` on
empty content, mutating nothing; (2) auto-register an undeclared channel;
(3) ask the Segmentation Policy; (4) roll via `SplitOutfile` if so; (5) write
the message to the now-active segment; (6) update `raw_size` and, for the
first message of a fresh segment, `begin_time`.  Success is `none`, failure
`some e`. -/
def RecordWriter.WriteMessage (w : RecordWriter) (msg : SingleMessage) :
    Option WErr × RecordWriter :=
  if !w.is_writing_ then (some .NotOpen, w)
  else if msg.content.isEmpty then (some .EmptyMessage, w)
  else
    let w1 := w.autoRegister msg.channel_name
    let w2 := if shouldRoll w1 msg.time then w1.SplitOutfile msg.time else w1
    let w3 := { w2 with
                active_ := { w2.active_ with
                             messages := w2.active_.messages ++ [msg] } }
    (none,
     { w3 with
       segment_raw_size_ := w3.segment_raw_size_ + msg.content.length,
       segment_begin_time_ :=
         match w3.segment_begin_time_ with
         | none => some msg.time
         | some bt => some bt })

/-- Modelled from the spec: sections 4.1 and 4.4, `WriteChannel` (declared at
record_writer.h lines 47-48).  Fails `NotOpen` if not writing; identical
re-declaration succeeds and changes nothing; a name collision with a
different type or descriptor fails `ChannelConflict` leaving the registry
untouched; a new name is appended to the registry and its declaration is
written into the active segment. -/
def RecordWriter.WriteChannel (w : RecordWriter)
    (name type proto_desc : String) : Option WErr × RecordWriter :=
  if !w.is_writing_ then (some .NotOpen, w)
  else
    match w.registry_.find? (fun c => c.name == name) with
    | some c =>
        if c.type_name == type && c.proto_desc == proto_desc then (none, w)
        else (some .ChannelConflict, w)
    | none =>
        (none,
         { w with
           registry_ := w.registry_ ++ [⟨name, type, proto_desc⟩],
           active_ := { w.active_ with
                        channels := w.active_.channels ++
                          [⟨name, type, proto_desc⟩] } })

/-- Modelled from the spec: section 4.1 `Open` (declared at record_writer.h
line 45): constructs the first segment (`file_index = 0`), marks the session
writing-enabled; a second `Open` without an intervening `Close` is guarded
and returns false. -/
def RecordWriter.Open (w : RecordWriter) (file : String) :
    Bool × RecordWriter :=
  if w.is_writing_ then (false, w)
  else
    (true,
     { w with
       is_writing_ := true,
       path_ := file,
       file_index_ := 0,
       segment_raw_size_ := 0,
       segment_begin_time_ := none,
       registry_ := [],
       active_ := ⟨0, [], []⟩ })

/-- Modelled from the spec: section 4.1 `Close` (declared at record_writer.h
line 46 — the header declares a `void` return; the spec's contract
`Close() -> bool` is followed here): finalizes the active segment and ends
the session; calling it when not open is a no-op success. -/
def RecordWriter.Close (w : RecordWriter) : Bool × RecordWriter :=
  if w.is_writing_ then
    (true,
     { w with
       is_writing_ := false,
       closed_segments_ := w.closed_segments_ ++ [w.active_],
       active_ := ⟨w.file_index_, [], []⟩ })
  else (true, w)

/-- The inline convenience overload, translated from record_writer.h
lines 65-81: a null message fails immediately; otherwise a `SingleMessage`
is built with the channel name, the raw content, and the clock's `now()`
(line 75, `Time::Now().ToNanosecond()`, passed here explicitly), and handed
to the core overload, whose success becomes the boolean result. -/
def RecordWriter.WriteMessageRaw (w : RecordWriter) (channel_name : String)
    (message : Option RawMessage) (now : Nat) : Bool × RecordWriter :=
  match message with
  | none => (false, w)
  | some m =>
      let single_msg : SingleMessage := ⟨channel_name, m.message, now⟩
      match w.WriteMessage single_msg with
      | (none, w2) => (true, w2)
      | (some _, w2) => (false, w2)

/-- All messages durably recorded by the session so far: those in every
retired segment followed by those in the active one. -/
def RecordWriter.allMessages (w : RecordWriter) : List SingleMessage :=
  (w.closed_segments_.map Segment.messages).flatten ++ w.active_.messages

/-- Fold a list of messages through the core `WriteMessage`. -/
def RecordWriter.writeAll (w : RecordWriter) :
    List SingleMessage → RecordWriter
  | [] => w
  | m :: ms => ((w.WriteMessage m).2.writeAll ms)

/-- Every call in the fold succeeds. -/
def RecordWriter.allSucceed (w : RecordWriter) :
    List SingleMessage → Bool
  | [] => true
  | m :: ms =>
      ((w.WriteMessage m).1.isNone) && ((w.WriteMessage m).2.allSucceed ms)

/-- A session operation, for quantifying over whole sessions. -/
inductive Op where
  | opn (file : String)
  | wchan (name type proto_desc : String)
  | wmsg (m : SingleMessage)
  | wraw (channel_name : String) (m : Option RawMessage) (now : Nat)
  | cls
deriving DecidableEq, Repr

/-- Apply one operation, discarding its result. -/
def RecordWriter.applyOp (w : RecordWriter) : Op → RecordWriter
  | .opn f => (w.Open f).2
  | .wchan n t d => (w.WriteChannel n t d).2
  | .wmsg m => (w.WriteMessage m).2
  | .wraw c m now => (w.WriteMessageRaw c m now).2
  | .cls => (w.Close).2

/-- Run a whole session. -/
def RecordWriter.run (w : RecordWriter) : List Op → RecordWriter
  | [] => w
  | op :: ops => (w.applyOp op).run ops

/-- A segment is self-describing: every channel referenced by one of its
messages has a declaration in the segment itself (spec section 8). -/
def Segment.selfDescribing (s : Segment) : Prop :=
  ∀ m ∈ s.messages, ∃ c ∈ s.channels, c.name = m.channel_name

/-- Every registered channel has a declaration (by name) already written
into the active segment — the auxiliary fact that makes the registry replay
of rotation sufficient for self-description. -/
def RegistryCovered (w : RecordWriter) : Prop :=
  ∀ c ∈ w.registry_, ∃ c2 ∈ w.active_.channels, c2.name = c.name

/-- The session invariant: all retired segments and the active one are
self-describing, and while the session is open the registry is covered by
the active segment's declarations. -/
def WInv (w : RecordWriter) : Prop :=
  (∀ s ∈ w.closed_segments_, s.selfDescribing) ∧
  w.active_.selfDescribing ∧
  (w.is_writing_ = true → RegistryCovered w)

/-! ### Projection lemmas -/

@[simp] theorem autoRegister_is_writing (w : RecordWriter) (n : String) :
    (w.autoRegister n).is_writing_ = w.is_writing_ := by
  unfold RecordWriter.autoRegister; split <;> rfl

@[simp] theorem autoRegister_raw_size (w : RecordWriter) (n : String) :
    (w.autoRegister n).segment_raw_size_ = w.segment_raw_size_ := by
  unfold RecordWriter.autoRegister; split <;> rfl

@[simp] theorem autoRegister_begin_time (w : RecordWriter) (n : String) :
    (w.autoRegister n).segment_begin_time_ = w.segment_begin_time_ := by
  unfold RecordWriter.autoRegister; split <;> rfl

@[simp] theorem autoRegister_file_index (w : RecordWriter) (n : String) :
    (w.autoRegister n).file_index_ = w.file_index_ := by
  unfold RecordWriter.autoRegister; split <;> rfl

@[simp] theorem autoRegister_closed (w : RecordWriter) (n : String) :
    (w.autoRegister n).closed_segments_ = w.closed_segments_ := by
  unfold RecordWriter.autoRegister; split <;> rfl

@[simp] theorem autoRegister_max_raw (w : RecordWriter) (n : String) :
    (w.autoRegister n).max_raw_size_ = w.max_raw_size_ := by
  unfold RecordWriter.autoRegister; split <;> rfl

@[simp] theorem autoRegister_max_interval (w : RecordWriter) (n : String) :
    (w.autoRegister n).max_interval_ = w.max_interval_ := by
  unfold RecordWriter.autoRegister; split <;> rfl

@[simp] theorem autoRegister_active_messages (w : RecordWriter) (n : String) :
    (w.autoRegister n).active_.messages = w.active_.messages := by
  unfold RecordWriter.autoRegister; split <;> rfl

@[simp] theorem shouldRoll_autoRegister (w : RecordWriter) (n : String)
    (t : Nat) : shouldRoll (w.autoRegister n) t = shouldRoll w t := by
  unfold shouldRoll
  rw [autoRegister_begin_time, autoRegister_raw_size, autoRegister_max_raw,
    autoRegister_max_interval]

/-! ### Case analysis of the core `WriteMessage` -/

theorem WriteMessage_not_open (w : RecordWriter) (msg : SingleMessage)
    (h : w.is_writing_ = false) : w.WriteMessage msg = (some .NotOpen, w) := by
  unfold RecordWriter.WriteMessage
  rw [h]; rfl

theorem WriteMessage_empty (w : RecordWriter) (msg : SingleMessage)
    (hw : w.is_writing_ = true) (hc : msg.content.isEmpty = true) :
    w.WriteMessage msg = (some .EmptyMessage, w) := by
  unfold RecordWriter.WriteMessage
  rw [hw, hc]; rfl

theorem WriteMessage_success (w : RecordWriter) (msg : SingleMessage)
    (hw : w.is_writing_ = true) (hc : msg.content.isEmpty = false) :
    (w.WriteMessage msg).1 = none := by
  unfold RecordWriter.WriteMessage
  rw [hw, hc]; rfl

theorem WriteMessage_fail_frame (w : RecordWriter) (msg : SingleMessage)
    (h : (w.WriteMessage msg).1 ≠ none) : (w.WriteMessage msg).2 = w := by
  unfold RecordWriter.WriteMessage at *
  by_cases hw : w.is_writing_
  · rw [hw] at h ⊢
    by_cases hc : msg.content.isEmpty
    · rw [hc] at h ⊢; rfl
    · rw [eq_false_of_ne_true hc] at h
      simp at h
  · rw [eq_false_of_ne_true hw] at h ⊢; rfl

theorem WriteMessage_state_roll (w : RecordWriter) (msg : SingleMessage)
    (hw : w.is_writing_ = true) (hc : msg.content.isEmpty = false)
    (hsr : shouldRoll (w.autoRegister msg.channel_name) msg.time = true) :
    (w.WriteMessage msg).2 =
      (let w2 := (w.autoRegister msg.channel_name).SplitOutfile msg.time
       { w2 with
         active_ := { w2.active_ with
                      messages := w2.active_.messages ++ [msg] },
         segment_raw_size_ := msg.content.length,
         segment_begin_time_ := some msg.time }) := by
  simp [RecordWriter.WriteMessage, RecordWriter.SplitOutfile, hw, hc, hsr]

theorem WriteMessage_state_noroll (w : RecordWriter) (msg : SingleMessage)
    (hw : w.is_writing_ = true) (hc : msg.content.isEmpty = false)
    (hsr : shouldRoll (w.autoRegister msg.channel_name) msg.time = false) :
    (w.WriteMessage msg).2 =
      (let w1 := w.autoRegister msg.channel_name
       { w1 with
         active_ := { w1.active_ with
                      messages := w1.active_.messages ++ [msg] },
         segment_raw_size_ := w1.segment_raw_size_ + msg.content.length,
         segment_begin_time_ :=
           match w1.segment_begin_time_ with
           | none => some msg.time
           | some bt => some bt }) := by
  simp [RecordWriter.WriteMessage, hw, hc, hsr]

theorem WriteMessage_success_allMessages (w : RecordWriter)
    (msg : SingleMessage) (h : (w.WriteMessage msg).1 = none) :
    (w.WriteMessage msg).2.allMessages = w.allMessages ++ [msg] := by
  by_cases hw : w.is_writing_
  · by_cases hc : msg.content.isEmpty
    · rw [WriteMessage_empty w msg hw hc] at h; cases h
    · have hc' := eq_false_of_ne_true hc
      by_cases hsr : shouldRoll (w.autoRegister msg.channel_name) msg.time
      · simp [RecordWriter.WriteMessage, hw, hc', hsr,
          RecordWriter.SplitOutfile, RecordWriter.allMessages]
      · have hsr' := eq_false_of_ne_true hsr
        simp [RecordWriter.WriteMessage, hw, hc', hsr',
          RecordWriter.allMessages]
  · rw [WriteMessage_not_open w msg (eq_false_of_ne_true hw)] at h; cases h

theorem WriteMessage_active_last (w : RecordWriter) (msg : SingleMessage)
    (h : (w.WriteMessage msg).1 = none) :
    (w.WriteMessage msg).2.active_.messages.getLast? = some msg := by
  by_cases hw : w.is_writing_
  · by_cases hc : msg.content.isEmpty
    · rw [WriteMessage_empty w msg hw hc] at h; cases h
    · have hc' := eq_false_of_ne_true hc
      by_cases hsr : shouldRoll (w.autoRegister msg.channel_name) msg.time
      · simp [RecordWriter.WriteMessage, hw, hc', hsr,
          RecordWriter.SplitOutfile]
      · have hsr' := eq_false_of_ne_true hsr
        simp [RecordWriter.WriteMessage, hw, hc', hsr']
  · rw [WriteMessage_not_open w msg (eq_false_of_ne_true hw)] at h; cases h

/-- Claim C2: along any sequence of successful `WriteMessage` calls (in
particular ones containing rotations), the multiset of messages recorded
across all segments — retired and active — grows by exactly the submitted
messages, so nothing is dropped or duplicated and each submitted message is
recorded in exactly one segment; moreover at every successful write that
rotates, the triggering message is recorded in the new segment (which then
contains only it) and the retired segment holds exactly the pre-call active
messages — the trigger is never recorded in the old segment. -/
theorem claim_C2_no_message_lost (w : RecordWriter)
    (msgs : List SingleMessage) (h : w.allSucceed msgs = true) :
    (w.writeAll msgs).allMessages = w.allMessages ++ msgs ∧
    (∀ (v : RecordWriter) (m : SingleMessage),
      (v.WriteMessage m).1 = none →
      (v.WriteMessage m).2.file_index_ = v.file_index_ + 1 →
      (v.WriteMessage m).2.active_.messages = [m] ∧
      ∃ retired,
        (v.WriteMessage m).2.closed_segments_ =
          v.closed_segments_ ++ [retired] ∧
        retired.messages = v.active_.messages) := by
  constructor
  · induction msgs generalizing w with
    | nil => simp [RecordWriter.writeAll]
    | cons m ms ih =>
      unfold RecordWriter.allSucceed at h
      rw [Bool.and_eq_true] at h
      obtain ⟨h1, h2⟩ := h
      have h1' : (w.WriteMessage m).1 = none :=
        Option.isNone_iff_eq_none.mp h1
      unfold RecordWriter.writeAll
      rw [ih _ h2, WriteMessage_success_allMessages w m h1']
      simp
  · intro v m hsucc hroll
    have hw : v.is_writing_ = true := by
      cases hvw : v.is_writing_ with
      | true => rfl
      | false =>
          rw [WriteMessage_not_open v m hvw] at hsucc
          cases hsucc
    have hc : m.content.isEmpty = false := by
      cases hce : m.content.isEmpty with
      | false => rfl
      | true =>
          rw [WriteMessage_empty v m hw hce] at hsucc
          cases hsucc
    by_cases hsr : shouldRoll (v.autoRegister m.channel_name) m.time
    · rw [WriteMessage_state_roll v m hw hc hsr]
      refine ⟨rfl, ⟨(v.autoRegister m.channel_name).active_, ?_,
        autoRegister_active_messages v m.channel_name⟩⟩
      show ((v.autoRegister m.channel_name).SplitOutfile
        m.time).closed_segments_ = v.closed_segments_ ++
          [(v.autoRegister m.channel_name).active_]
      unfold RecordWriter.SplitOutfile
      rw [autoRegister_closed]
    · have hsr' := eq_false_of_ne_true hsr
      rw [WriteMessage_state_noroll v m hw hc hsr'] at hroll
      have hfi : (v.autoRegister m.channel_name).file_index_ =
          v.file_index_ + 1 := hroll
      rw [autoRegister_file_index] at hfi
      exact absurd hfi (Nat.succ_ne_self v.file_index_).symm

/-- Witness for C2: an open writer with byte threshold 1 receives two
messages; both calls succeed, the second write rotates, both messages are
recorded, and the rotating write puts its message in the new segment while
the retired segment keeps exactly the first message. -/
theorem claim_C2_no_message_lost_witness :
    (let w : RecordWriter :=
      { is_writing_ := true, max_raw_size_ := 1, max_interval_ := 100 }
     let m1 : SingleMessage := ⟨"a", [7, 8], 0⟩
     let m2 : SingleMessage := ⟨"a", [9], 1⟩
     let w1 := (w.WriteMessage m1).2
     w.allSucceed [m1, m2] = true ∧
       (w.writeAll [m1, m2]).allMessages = w.allMessages ++ [m1, m2] ∧
       ((w1.WriteMessage m2).1 = none ∧
         (w1.WriteMessage m2).2.file_index_ = w1.file_index_ + 1) ∧
       ((w1.WriteMessage m2).2.active_.messages = [m2] ∧
         ∃ retired,
           (w1.WriteMessage m2).2.closed_segments_ =
             w1.closed_segments_ ++ [retired] ∧
           retired.messages = w1.active_.messages)) :=
  ⟨by decide, (claim_C2_no_message_lost _ [⟨"a", [7, 8], 0⟩, ⟨"a", [9], 1⟩]
      (by decide)).1,
    ⟨by decide, by decide⟩,
    (claim_C2_no_message_lost
        { is_writing_ := true, max_raw_size_ := 1, max_interval_ := 100 }
        [] (by decide)).2 _ _
      (by decide) (by decide)⟩

/-- Claim C3: a `WriteMessage` call with empty content fails and mutates no
state at all (in particular `raw_size`, `begin_time`, `file_index` and the
active segment are unchanged); when the writer is open the failure is
`EmptyMessage`.  Likewise the convenience overload fails on a null message
without touching the state. -/
theorem claim_C3_empty_message (w : RecordWriter) (msg : SingleMessage)
    (ch : String) (now : Nat) (hc : msg.content.isEmpty = true) :
    ((w.WriteMessage msg).1.isSome = true ∧ (w.WriteMessage msg).2 = w) ∧
    (w.is_writing_ = true →
      (w.WriteMessage msg).1 = some WErr.EmptyMessage) ∧
    w.WriteMessageRaw ch none now = (false, w) := by
  refine ⟨?_, fun hw => ?_, rfl⟩
  · by_cases hw : w.is_writing_
    · rw [WriteMessage_empty w msg hw hc]; exact ⟨rfl, rfl⟩
    · rw [WriteMessage_not_open w msg (eq_false_of_ne_true hw)]
      exact ⟨rfl, rfl⟩
  · rw [WriteMessage_empty w msg hw hc]

/-- Witness for C3: an open writer receives a zero-length message. -/
theorem claim_C3_empty_message_witness :
    (let w : RecordWriter :=
      { is_writing_ := true, segment_raw_size_ := 5,
        segment_begin_time_ := some 2, max_raw_size_ := 10,
        max_interval_ := 10 }
     let msg : SingleMessage := ⟨"c", [], 3⟩
     ((w.WriteMessage msg).1.isSome = true ∧ (w.WriteMessage msg).2 = w) ∧
       (w.is_writing_ = true →
         (w.WriteMessage msg).1 = some WErr.EmptyMessage) ∧
       w.WriteMessageRaw "c" none 3 = (false, w)) :=
  claim_C3_empty_message _ _ "c" 3 rfl

/-- Claim C4: `Close` always reports success; closing a writer that is not
open is a no-op; and a second `Close` right after a first one is a no-op
that also succeeds. -/
theorem claim_C4_close_idempotent (w : RecordWriter) :
    (w.Close).1 = true ∧
    (w.is_writing_ = false → w.Close = (true, w)) ∧
    (w.Close).2.Close = (true, (w.Close).2) := by
  by_cases hw : w.is_writing_
  · simp [RecordWriter.Close, hw]
  · have hw' := eq_false_of_ne_true hw
    simp [RecordWriter.Close, hw']

/-- Witness for C4: a concrete writer that was never opened. -/
theorem claim_C4_close_idempotent_witness :
    (let w : RecordWriter := { max_raw_size_ := 1, max_interval_ := 1 }
     w.is_writing_ = false ∧ (w.Close).1 = true ∧ w.Close = (true, w) ∧
       (w.Close).2.Close = (true, (w.Close).2)) :=
  ⟨rfl, (claim_C4_close_idempotent _).1,
    (claim_C4_close_idempotent _).2.1 rfl,
    (claim_C4_close_idempotent _).2.2⟩

/-- Claim C5: on an open writer, re-declaring a registered channel with the
identical type and descriptor succeeds any number of times without changing
the state, while re-declaring it with a different type or descriptor fails
with `ChannelConflict` and leaves the state — in particular the original
declaration — unchanged. -/
theorem claim_C5_channel_redeclaration (w : RecordWriter)
    (name t d : String) (hw : w.is_writing_ = true)
    (hfind : w.registry_.find? (fun c => c.name == name) =
      some ⟨name, t, d⟩) :
    w.WriteChannel name t d = (none, w) ∧
    (∀ n : Nat,
      (fun v : RecordWriter => (v.WriteChannel name t d).2)^[n] w = w) ∧
    (∀ t' d' : String, ¬(t' = t ∧ d' = d) →
      w.WriteChannel name t' d' = (some WErr.ChannelConflict, w)) := by
  have hsame : w.WriteChannel name t d = (none, w) := by
    simp [RecordWriter.WriteChannel, hw, hfind]
  refine ⟨hsame, ?_, ?_⟩
  · intro n
    induction n with
    | zero => rfl
    | succ k ih => rw [Function.iterate_succ_apply, hsame, ih]
  · intro t' d' hne
    have hcond : ((⟨name, t, d⟩ : Channel).type_name == t' &&
        (⟨name, t, d⟩ : Channel).proto_desc == d') = false := by
      rcases not_and_or.mp hne with hne | hne
      · simp [Ne.symm hne]
      · simp [Ne.symm hne]
    simp [RecordWriter.WriteChannel, hw, hfind, hcond]

/-- Witness for C5: channel "c" registered as ("T", "D"). -/
theorem claim_C5_channel_redeclaration_witness :
    (let w : RecordWriter :=
      { is_writing_ := true, registry_ := [⟨"c", "T", "D"⟩],
        max_raw_size_ := 1, max_interval_ := 1 }
     w.WriteChannel "c" "T" "D" = (none, w) ∧
       (fun v : RecordWriter => (v.WriteChannel "c" "T" "D").2)^[3] w = w ∧
       w.WriteChannel "c" "U" "D" = (some WErr.ChannelConflict, w)) :=
  ⟨(claim_C5_channel_redeclaration _ "c" "T" "D" rfl (by decide)).1,
    (claim_C5_channel_redeclaration _ "c" "T" "D" rfl (by decide)).2.1 3,
    (claim_C5_channel_redeclaration _ "c" "T" "D" rfl (by decide)).2.2
      "U" "D" (by decide)⟩

/-- Claim C7: any `WriteMessage` (either overload) or `WriteChannel` call
made while the writer is not in the writing-enabled state — before `Open` or
after `Close` — fails with `NotOpen` (surfaced as `false` by the boolean
convenience overload) and leaves the state untouched. -/
theorem claim_C7_not_open (w : RecordWriter) (msg : SingleMessage)
    (name t d ch : String) (m : Option RawMessage) (now : Nat)
    (h : w.is_writing_ = false) :
    w.WriteMessage msg = (some WErr.NotOpen, w) ∧
    w.WriteChannel name t d = (some WErr.NotOpen, w) ∧
    w.WriteMessageRaw ch m now = (false, w) := by
  refine ⟨WriteMessage_not_open w msg h, ?_, ?_⟩
  · unfold RecordWriter.WriteChannel
    rw [h]; rfl
  · cases m with
    | none => rfl
    | some m =>
        simp [RecordWriter.WriteMessageRaw, WriteMessage_not_open w _ h]

/-- Witness for C7: a never-opened writer rejects all three calls. -/
theorem claim_C7_not_open_witness :
    (let w : RecordWriter := { max_raw_size_ := 4, max_interval_ := 4 }
     w.WriteMessage ⟨"c", [1], 0⟩ = (some WErr.NotOpen, w) ∧
       w.WriteChannel "c" "T" "D" = (some WErr.NotOpen, w) ∧
       w.WriteMessageRaw "c" (some ⟨[1]⟩) 0 = (false, w)) :=
  claim_C7_not_open _ _ "c" "T" "D" "c" (some ⟨[1]⟩) 0 rfl

/-- Claim C8: while `begin_time` is not yet established — as for the very
first message of a session — no configuration of the two thresholds makes
`WriteMessage` roll, and a successful first write establishes `begin_time`
as that message's timestamp; `begin_time` is unset at construction and
still unset right after `Open`. -/
theorem claim_C8_first_message_never_rolls (w : RecordWriter)
    (msg : SingleMessage) (hb : w.segment_begin_time_ = none) :
    ((w.WriteMessage msg).2.file_index_ = w.file_index_ ∧
      (w.WriteMessage msg).2.closed_segments_ = w.closed_segments_) ∧
    ((w.WriteMessage msg).1 = none →
      (w.WriteMessage msg).2.segment_begin_time_ = some msg.time) ∧
    (∀ maxRaw maxDur : Nat,
      (RecordWriter.init maxRaw maxDur).segment_begin_time_ = none) ∧
    (∀ maxRaw maxDur : Nat, ∀ f : String,
      ((RecordWriter.init maxRaw maxDur).Open f).2.segment_begin_time_ =
        none) := by
  have hsr : shouldRoll (w.autoRegister msg.channel_name) msg.time = false := by
    rw [shouldRoll_autoRegister]; unfold shouldRoll; rw [hb]
  refine ⟨?_, fun hsucc => ?_, fun _ _ => rfl, fun _ _ _ => rfl⟩
  · by_cases hw : w.is_writing_
    · by_cases hc : msg.content.isEmpty
      · rw [WriteMessage_empty w msg hw hc]; exact ⟨rfl, rfl⟩
      · have hc' := eq_false_of_ne_true hc
        constructor <;> simp [RecordWriter.WriteMessage, hw, hc', hsr]
    · rw [WriteMessage_not_open w msg (eq_false_of_ne_true hw)]
      exact ⟨rfl, rfl⟩
  · have hw : w.is_writing_ = true := by
      by_contra hw
      rw [WriteMessage_not_open w msg (eq_false_of_ne_true hw)] at hsucc
      cases hsucc
    have hc : msg.content.isEmpty = false := by
      cases hce : msg.content.isEmpty with
      | false => rfl
      | true =>
          rw [WriteMessage_empty w msg hw hce] at hsucc
          cases hsucc
    simp [RecordWriter.WriteMessage, hw, hc, hsr, hb]

/-- Witness for C8: an opened writer with tiny thresholds takes its first
message (timestamp one billion) without rolling. -/
theorem claim_C8_first_message_never_rolls_witness :
    (let w : RecordWriter :=
      ((RecordWriter.init 0 0).Open "s").2
     let msg : SingleMessage := ⟨"c", [1, 2, 3], 1000000000⟩
     ((w.WriteMessage msg).2.file_index_ = w.file_index_ ∧
       (w.WriteMessage msg).2.closed_segments_ = w.closed_segments_) ∧
     ((w.WriteMessage msg).1 = none →
       (w.WriteMessage msg).2.segment_begin_time_ = some msg.time) ∧
     (∀ maxRaw maxDur : Nat,
       (RecordWriter.init maxRaw maxDur).segment_begin_time_ = none) ∧
     (∀ maxRaw maxDur : Nat, ∀ f : String,
       ((RecordWriter.init maxRaw maxDur).Open f).2.segment_begin_time_ =
         none)) :=
  claim_C8_first_message_never_rolls _ _ rfl

/-! ### Invariant preservation -/

theorem autoRegister_mem (w : RecordWriter) (n : String) :
    ∃ c ∈ (w.autoRegister n).registry_, c.name = n := by
  unfold RecordWriter.autoRegister
  by_cases h : w.registry_.any (fun c => c.name == n)
  · rw [if_pos h]
    rcases List.any_eq_true.mp h with ⟨c, hc, hcn⟩
    exact ⟨c, hc, by simpa using hcn⟩
  · rw [if_neg h]
    exact ⟨⟨n, "", ""⟩, List.mem_append_right _ (by simp), rfl⟩

theorem WInv_of_components (w v : RecordWriter)
    (hcl : w.closed_segments_ = v.closed_segments_)
    (hac : w.active_ = v.active_)
    (hrg : w.registry_ = v.registry_)
    (hiw : w.is_writing_ = v.is_writing_)
    (h : WInv v) : WInv w := by
  unfold WInv RegistryCovered at *
  rw [hcl, hac, hrg, hiw]
  exact h

theorem autoRegister_inv (w : RecordWriter) (n : String) (h : WInv w) :
    WInv (w.autoRegister n) := by
  unfold RecordWriter.autoRegister
  by_cases hany : w.registry_.any (fun c => c.name == n)
  · rw [if_pos hany]; exact h
  · rw [if_neg hany]
    obtain ⟨h1, h2, h3⟩ := h
    refine ⟨h1, ?_, ?_⟩
    · intro m hm
      obtain ⟨c, hc, hcn⟩ := h2 m hm
      exact ⟨c, List.mem_append_left _ hc, hcn⟩
    · intro hw c hc
      rcases List.mem_append.mp hc with hc | hc
      · obtain ⟨c2, hc2, hc2n⟩ := h3 hw c hc
        exact ⟨c2, List.mem_append_left _ hc2, hc2n⟩
      · rw [List.mem_singleton.mp hc]
        exact ⟨⟨n, "", ""⟩, List.mem_append_right _ (by simp), rfl⟩

theorem SplitOutfile_inv (w : RecordWriter) (t : Nat) (h : WInv w) :
    WInv (w.SplitOutfile t) := by
  obtain ⟨h1, h2, _⟩ := h
  refine ⟨?_, ?_, ?_⟩
  · intro s hs
    rcases List.mem_append.mp hs with hs | hs
    · exact h1 s hs
    · rw [List.mem_singleton.mp hs]; exact h2
  · intro m hm; cases hm
  · intro _ c hc; exact ⟨c, hc, rfl⟩

theorem appendMsg_inv (v : RecordWriter) (msg : SingleMessage) (h : WInv v)
    (hch : ∃ c ∈ v.active_.channels, c.name = msg.channel_name) :
    WInv { v with active_ :=
      { v.active_ with messages := v.active_.messages ++ [msg] } } := by
  obtain ⟨h1, h2, h3⟩ := h
  refine ⟨h1, ?_, h3⟩
  intro m hm
  rcases List.mem_append.mp hm with hm | hm
  · exact h2 m hm
  · rw [List.mem_singleton.mp hm]; exact hch

theorem WriteMessage_inv (w : RecordWriter) (msg : SingleMessage)
    (h : WInv w) : WInv (w.WriteMessage msg).2 := by
  by_cases hw : w.is_writing_
  · by_cases hc : msg.content.isEmpty
    · rw [WriteMessage_empty w msg hw hc]; exact h
    · have hc' := eq_false_of_ne_true hc
      have har := autoRegister_inv w msg.channel_name h
      obtain ⟨cn, hcn, hcne⟩ := autoRegister_mem w msg.channel_name
      by_cases hsr : shouldRoll (w.autoRegister msg.channel_name) msg.time
      · rw [WriteMessage_state_roll w msg hw hc' hsr]
        refine WInv_of_components _ _ rfl rfl rfl rfl ?_
        refine appendMsg_inv _ msg (SplitOutfile_inv _ _ har) ?_
        exact ⟨cn, hcn, hcne⟩
      · have hsr' := eq_false_of_ne_true hsr
        rw [WriteMessage_state_noroll w msg hw hc' hsr']
        refine WInv_of_components _ _ rfl rfl rfl rfl ?_
        refine appendMsg_inv _ msg har ?_
        have hiw : (w.autoRegister msg.channel_name).is_writing_ = true := by
          rw [autoRegister_is_writing]; exact hw
        obtain ⟨c2, hc2, hc2n⟩ := har.2.2 hiw cn hcn
        exact ⟨c2, hc2, hc2n.trans hcne⟩
  · rw [WriteMessage_not_open w msg (eq_false_of_ne_true hw)]; exact h

theorem WriteChannel_state_new (w : RecordWriter) (n t d : String)
    (hw : w.is_writing_ = true)
    (hf : w.registry_.find? (fun c => c.name == n) = none) :
    w.WriteChannel n t d =
      (none,
       { w with
         registry_ := w.registry_ ++ [⟨n, t, d⟩],
         active_ := { w.active_ with
                      channels := w.active_.channels ++ [⟨n, t, d⟩] } }) := by
  simp [RecordWriter.WriteChannel, hw, hf]

theorem WriteChannel_inv (w : RecordWriter) (n t d : String) (h : WInv w) :
    WInv (w.WriteChannel n t d).2 := by
  by_cases hw : w.is_writing_
  · cases hf : w.registry_.find? (fun c => c.name == n) with
    | some c =>
        have hst : (w.WriteChannel n t d).2 = w := by
          simp only [RecordWriter.WriteChannel, hw, Bool.not_true,
            Bool.false_eq_true, if_false, hf]
          by_cases hcond : (c.type_name == t && c.proto_desc == d) = true
          · rw [if_pos hcond]
          · rw [if_neg hcond]
        rw [hst]; exact h
    | none =>
        rw [WriteChannel_state_new w n t d hw hf]
        obtain ⟨h1, h2, h3⟩ := h
        refine ⟨h1, ?_, ?_⟩
        · intro m hm
          obtain ⟨c, hc, hcn⟩ := h2 m hm
          exact ⟨c, List.mem_append_left _ hc, hcn⟩
        · intro _ c hc
          rcases List.mem_append.mp hc with hc | hc
          · obtain ⟨c2, hc2, hc2n⟩ := h3 hw c hc
            exact ⟨c2, List.mem_append_left _ hc2, hc2n⟩
          · rw [List.mem_singleton.mp hc]
            exact ⟨⟨n, t, d⟩, List.mem_append_right _ (by simp), rfl⟩
  · have hst : (w.WriteChannel n t d).2 = w := by
      simp [RecordWriter.WriteChannel, eq_false_of_ne_true hw]
    rw [hst]; exact h

theorem Open_inv (w : RecordWriter) (f : String) (h : WInv w) :
    WInv (w.Open f).2 := by
  unfold RecordWriter.Open
  by_cases hw : w.is_writing_
  · rw [if_pos hw]; exact h
  · rw [if_neg hw]
    obtain ⟨h1, _, _⟩ := h
    refine ⟨h1, ?_, ?_⟩
    · intro m hm; cases hm
    · intro _ c hc; cases hc

theorem Close_inv (w : RecordWriter) (h : WInv w) : WInv (w.Close).2 := by
  unfold RecordWriter.Close
  by_cases hw : w.is_writing_
  · rw [if_pos hw]
    obtain ⟨h1, h2, _⟩ := h
    refine ⟨?_, ?_, ?_⟩
    · intro s hs
      rcases List.mem_append.mp hs with hs | hs
      · exact h1 s hs
      · rw [List.mem_singleton.mp hs]; exact h2
    · intro m hm; cases hm
    · intro hco; exact Bool.noConfusion hco
  · rw [if_neg hw]; exact h

theorem WriteMessageRaw_state (w : RecordWriter) (ch : String)
    (m : RawMessage) (now : Nat) :
    (w.WriteMessageRaw ch (some m) now).2 =
      (w.WriteMessage ⟨ch, m.message, now⟩).2 := by
  cases hres : w.WriteMessage ⟨ch, m.message, now⟩ with
  | mk r w2 => cases r <;> simp [RecordWriter.WriteMessageRaw, hres]

theorem applyOp_inv (w : RecordWriter) (op : Op) (h : WInv w) :
    WInv (w.applyOp op) := by
  cases op with
  | opn f => exact Open_inv w f h
  | wchan n t d => exact WriteChannel_inv w n t d h
  | wmsg m => exact WriteMessage_inv w m h
  | wraw c m now =>
      cases m with
      | none => exact h
      | some m =>
          show WInv (w.WriteMessageRaw c (some m) now).2
          rw [WriteMessageRaw_state]
          exact WriteMessage_inv w _ h
  | cls => exact Close_inv w h

theorem run_inv (w : RecordWriter) (ops : List Op) (h : WInv w) :
    WInv (w.run ops) := by
  induction ops generalizing w with
  | nil => exact h
  | cons op ops ih => exact ih _ (applyOp_inv w op h)

/-- Claim C6: in every session run from a fresh writer, every segment —
each retired segment and the active one, auto-registered channels
included — contains a declaration for every channel referenced by a message
recorded in it; and rotation replays into the new segment exactly the
registry, in original registration order. -/
theorem claim_C6_self_describing (maxRaw maxDur : Nat) (ops : List Op) :
    (∀ s ∈ ((RecordWriter.init maxRaw maxDur).run ops).closed_segments_,
      s.selfDescribing) ∧
    ((RecordWriter.init maxRaw maxDur).run ops).active_.selfDescribing ∧
    (∀ (v : RecordWriter) (t : Nat),
      (v.SplitOutfile t).active_.channels = v.registry_) := by
  have h0 : WInv (RecordWriter.init maxRaw maxDur) := by
    refine ⟨fun s hs => ?_, fun m hm => ?_, fun hco => Bool.noConfusion hco⟩
    · cases hs
    · cases hm
  have h := run_inv _ ops h0
  exact ⟨h.1, h.2.1, fun v t => rfl⟩

/-- Claim C9: whenever the convenience overload succeeds, the message it
records carries the clock reading passed at the call (record_writer.h
line 75) — the recorded entry is exactly the channel name, the raw bytes
and `now`. -/
theorem claim_C9_timestamp_now (w : RecordWriter) (ch : String)
    (m : RawMessage) (now : Nat)
    (h : (w.WriteMessageRaw ch (some m) now).1 = true) :
    (w.WriteMessageRaw ch (some m) now).2.active_.messages.getLast? =
      some ⟨ch, m.message, now⟩ := by
  cases hres : w.WriteMessage ⟨ch, m.message, now⟩ with
  | mk r w2 =>
      cases r with
      | none =>
          rw [WriteMessageRaw_state, hres]
          have hlast := WriteMessage_active_last w ⟨ch, m.message, now⟩
            (by rw [hres])
          rw [hres] at hlast
          exact hlast
      | some e =>
          have hfail : (w.WriteMessageRaw ch (some m) now).1 = false := by
            simp [RecordWriter.WriteMessageRaw, hres]
          rw [hfail] at h
          cases h

/-- Witness for C9: a raw write on an open writer records the bytes with
the supplied clock reading. -/
theorem claim_C9_timestamp_now_witness :
    (let w : RecordWriter :=
      { is_writing_ := true, max_raw_size_ := 10, max_interval_ := 10 }
     (w.WriteMessageRaw "c" (some ⟨[4, 5]⟩) 42).1 = true ∧
       (w.WriteMessageRaw "c" (some ⟨[4, 5]⟩) 42).2.active_.messages.getLast?
         = some ⟨"c", [4, 5], 42⟩) :=
  ⟨by decide, claim_C9_timestamp_now _ "c" ⟨[4, 5]⟩ 42 (by decide)⟩

/-- Claim C10: the convenience overload refines the core one — for a
non-null message it returns true exactly when the core overload succeeds on
the derived `SingleMessage` (channel name copied, content copied, time set
to `now`) and leaves the same state; for a null message it returns false
with the state untouched (the core overload is never reached). -/
theorem claim_C10_overload_refinement (w : RecordWriter) (ch : String)
    (m : RawMessage) (now : Nat) :
    w.WriteMessageRaw ch none now = (false, w) ∧
    ((w.WriteMessageRaw ch (some m) now).1 = true ↔
      (w.WriteMessage ⟨ch, m.message, now⟩).1 = none) ∧
    (w.WriteMessageRaw ch (some m) now).2 =
      (w.WriteMessage ⟨ch, m.message, now⟩).2 := by
  refine ⟨rfl, ?_, WriteMessageRaw_state w ch m now⟩
  cases hres : w.WriteMessage ⟨ch, m.message, now⟩ with
  | mk r w2 => cases r <;> simp [RecordWriter.WriteMessageRaw, hres]

end Apollo.Record
